import Mathlib

/-!
Shallow embedding of the bldr configuration merge-and-render pipeline
(src/bldr/command/config.rs) and of the downloader's filename derivation
(src/bldr/util/http.rs), with theorems settling the specification claims.

Modelling conventions:
- Rust `BTreeMap<String, toml::Value>` is embedded as an association list
  `List (String × Toml)`; `BTreeMap::get` is `List.lookup`, iteration is the
  list traversal order.
- `toml::Value::Float` and `toml::Value::Datetime` payloads are carried as
  the strings they format to, since the code only ever formats them with the
  Display formatter. (The 2015 toml crate stores Datetime as a String.)
- `i64` formatting with the Display formatter is embedded as `toString` on
  `Int`, which produces the same decimal representation.
- External effects (the process environment, the toml parser, mustache
  template compilation, file creation) are passed in as function parameters,
  so the pipeline's control flow is embedded exactly while the collaborators
  stay abstract.
-/

namespace Habitat

/-- Error variants of `BldrError` used by the embedded code paths. -/
inductive BldrError where
  | tomlParser
  | cannotParseFileName
  | templateFailure (f : String)
  | createFailure (f : String)
deriving DecidableEq

/-- Embedding of `toml::Value`: the tagged configuration value union. -/
inductive Toml where
  | str (s : String)
  | int (i : Int)
  | float (s : String)
  | bool (b : Bool)
  | datetime (s : String)
  | arr (a : List Toml)
  | table (t : List (String × Toml))

/-- A top-level configuration table, `BTreeMap<String, toml::Value>`. -/
abbrev TomlTable := List (String × Toml)

/-- Embedding of `mustache::Data`: the template engine's neutral data model. -/
inductive Data where
  | strVal (s : String)
  | boolVal (b : Bool)
  | vecVal (v : List Data)
  | mapVal (m : List (String × Data))

/-- Embedding of `rustc_serialize::json::Json`. `F64` payloads are carried as
the strings they format to, as for `Toml.float`. -/
inductive Json where
  | i64 (i : Int)
  | u64 (n : Nat)
  | f64 (s : String)
  | str (s : String)
  | bool (b : Bool)
  | arr (a : List Json)
  | obj (o : List (String × Json))
  | null

/-- Embedding of `toml_merge` (config.rs lines 90-99): iterate the left
table's entries in order; for each key take the right table's value when the
right table defines the key, else keep the left value. -/
def toml_merge (left right : TomlTable) : TomlTable :=
  left.map (fun p =>
    match List.lookup p.1 right with
    | some right_value => (p.1, right_value)
    | none => p)

mutual

/-- Embedding of `toml_to_mustache` (config.rs lines 109-119). -/
def toml_to_mustache : Toml → Data
  | .str s => .strVal s
  | .int i => .strVal (toString i)
  | .float s => .strVal s
  | .bool b => .boolVal b
  | .datetime s => .strVal s
  | .arr a => .vecVal (toml_list_to_mustache a)
  | .table t => .mapVal (toml_entries_to_mustache t)

/-- The element loop of `toml_vec_to_mustache` (config.rs lines 121-127). -/
def toml_list_to_mustache : List Toml → List Data
  | [] => []
  | x :: xs => toml_to_mustache x :: toml_list_to_mustache xs

/-- The entry loop of `toml_table_to_mustache` (config.rs lines 101-107);
keys are kept verbatim, as `format` with the Display formatter on a String
is the identity. -/
def toml_entries_to_mustache : List (String × Toml) → List (String × Data)
  | [] => []
  | p :: rest => (p.1, toml_to_mustache p.2) :: toml_entries_to_mustache rest

end

/-- Embedding of `toml_vec_to_mustache` (config.rs lines 121-127). -/
def toml_vec_to_mustache (a : List Toml) : Data :=
  .vecVal (toml_list_to_mustache a)

/-- Embedding of `toml_table_to_mustache` (config.rs lines 101-107). -/
def toml_table_to_mustache (t : TomlTable) : Data :=
  .mapVal (toml_entries_to_mustache t)

mutual

/-- Embedding of `json_to_mustache` (config.rs lines 129-140). -/
def json_to_mustache : Json → Data
  | .i64 i => .strVal (toString i)
  | .u64 n => .strVal (toString n)
  | .f64 s => .strVal s
  | .str s => .strVal s
  | .bool b => .boolVal b
  | .arr a => .vecVal (json_list_to_mustache a)
  | .obj o => .mapVal (json_entries_to_mustache o)
  | .null => .strVal ""

/-- The element loop of `json_vec_to_mustache` (config.rs lines 150-156). -/
def json_list_to_mustache : List Json → List Data
  | [] => []
  | x :: xs => json_to_mustache x :: json_list_to_mustache xs

/-- The entry loop of `json_object_to_mustache` (config.rs lines 142-148). -/
def json_entries_to_mustache : List (String × Json) → List (String × Data)
  | [] => []
  | p :: rest => (p.1, json_to_mustache p.2) :: json_entries_to_mustache rest

end

/-- Embedding of `json_vec_to_mustache` (config.rs lines 150-156). -/
def json_vec_to_mustache (a : List Json) : Data :=
  .vecVal (json_list_to_mustache a)

/-- Embedding of `json_object_to_mustache` (config.rs lines 142-148). -/
def json_object_to_mustache (o : List (String × Json)) : Data :=
  .mapVal (json_entries_to_mustache o)

/-- The environment variable name built by `env_to_toml` (config.rs line 72):
the package name appended verbatim to the fixed `BLDR_` stem, with no case
change. -/
def env_var_name (pkg : String) : String :=
  "BLDR_" ++ pkg

/-- ASCII uppercasing of one character, used to state the specification's
naming scheme. -/
def upper_ascii (c : Char) : Char :=
  if 'a' ≤ c ∧ c ≤ 'z' then Char.ofNat (c.toNat - 32) else c

/-- The variable naming scheme as the specification words it, for comparison
with `env_var_name`: stem, underscore, then the package name uppercased. -/
def env_var_name_spec (pkg : String) : String :=
  "BLDR_" ++ String.mk (pkg.toList.map upper_ascii)

/-- Embedding of `env_to_toml` (config.rs lines 71-82). `env` is the process
environment (`env::var`, with both lookup failures collapsed to `none`) and
`parse` is the toml parser (`none` models a parse with errors). -/
def env_to_toml (env : String → Option String) (parse : String → Option TomlTable)
    (pkg : String) : Except BldrError (Option TomlTable) :=
  match env (env_var_name pkg) with
  | none => .ok none
  | some val =>
    match parse val with
    | none => .error .tomlParser
    | some toml_value => .ok (some toml_value)

/-- The configuration data built by `package` (config.rs lines 45-57): the
discovery overlay match, then the environment overlay match, then the
conversion to mustache data. -/
def final_config_data (default_toml : TomlTable) (disc : Option TomlTable)
    (env_toml : Option TomlTable) : Data :=
  let discovery_toml :=
    match disc with
    | some discovery_toml_value => toml_merge default_toml discovery_toml_value
    | none => default_toml
  match env_toml with
  | some env_toml_value => toml_table_to_mustache (toml_merge discovery_toml env_toml_value)
  | none => toml_table_to_mustache discovery_toml

/-- One optional overlay step as the specification words it: apply the merge
when the source returned a table, pass the current table through unchanged
when it returned none. -/
def overlay (t : TomlTable) : Option TomlTable → TomlTable
  | some o => toml_merge t o
  | none => t

/-- The per-file rendering loop of `package` (config.rs lines 61-66).
`compile` models `mustache::compile_path` and `create` models
`File::create`; both are fallible and propagated with `try` by the code.
Returns the list of files written (created and rendered), in order, and the
first error when one occurred. Processing stops at the first error. -/
def render_files (compile create : String → Except BldrError Unit) :
    List String → List String × Option BldrError
  | [] => ([], none)
  | f :: rest =>
    match compile f with
    | .error e => ([], some e)
    | .ok _ =>
      match create f with
      | .error e => ([], some e)
      | .ok _ =>
        let result := render_files compile create rest
        (f :: result.1, result.2)

/-- Embedding of the tail of `package` (config.rs lines 45-68): after the
defaults are loaded and the discovery overlay fetched, overlay the
environment (aborting on its parse failure), convert to mustache data, and
render each configuration file. Returns the files written and the first
error. -/
def package_configure (default_toml : TomlTable) (disc : Option TomlTable)
    (env : String → Option String) (parse : String → Option TomlTable)
    (pkg : String) (files : List String)
    (compile create : String → Except BldrError Unit) :
    List String × Option BldrError :=
  match env_to_toml env parse pkg with
  | .error e => ([], some e)
  | .ok env_toml =>
    let _final_data := final_config_data default_toml disc env_toml
    render_files compile create files

/-- Splitting a character list at every slash, with the semantics of Rust's
`str::split` on the pattern since the code calls `url.split` (http.rs line
77): the empty input yields one empty segment, and every slash opens a new
segment. -/
def split_on_slash : List Char → List (List Char)
  | [] => [[]]
  | c :: rest =>
    let r := split_on_slash rest
    if c = '/' then [] :: r
    else
      match r with
      | [] => [[c]]
      | seg :: segs => (c :: seg) :: segs

/-- Embedding of `file_name` (http.rs lines 76-79): the last slash-separated
segment of the URL, with the missing-segment case mapped to
`CannotParseFileName`. -/
def file_name (url : String) : Except BldrError String :=
  match (split_on_slash url.toList).getLast? with
  | some result => .ok (String.mk result)
  | none => .error .cannotParseFileName

/-! Helper lemmas shared by the claim theorems. -/

theorem toml_list_to_mustache_eq_map (a : List Toml) :
    toml_list_to_mustache a = a.map toml_to_mustache := by
  induction a with
  | nil => rfl
  | cons x xs ih => simp [toml_list_to_mustache, ih]

theorem toml_entries_to_mustache_eq_map (t : List (String × Toml)) :
    toml_entries_to_mustache t = t.map (fun p => (p.1, toml_to_mustache p.2)) := by
  induction t with
  | nil => rfl
  | cons p rest ih => simp [toml_entries_to_mustache, ih]

theorem json_list_to_mustache_eq_map (a : List Json) :
    json_list_to_mustache a = a.map json_to_mustache := by
  induction a with
  | nil => rfl
  | cons x xs ih => simp [json_list_to_mustache, ih]

theorem json_entries_to_mustache_eq_map (o : List (String × Json)) :
    json_entries_to_mustache o = o.map (fun p => (p.1, json_to_mustache p.2)) := by
  induction o with
  | nil => rfl
  | cons p rest ih => simp [json_entries_to_mustache, ih]

theorem split_on_slash_ne_nil (l : List Char) : split_on_slash l ≠ [] := by
  induction l with
  | nil => simp [split_on_slash]
  | cons c rest ih =>
    simp only [split_on_slash]
    by_cases h : c = '/'
    · simp [h]
    · simp only [if_neg h]
      cases hr : split_on_slash rest with
      | nil => simp
      | cons seg segs => simp

/-! Claim theorems. -/

/-- C1: for every key of the primary table, the merge takes the override's
value when the override defines the key (whole-value replacement, with no
recursive descent even for nested tables) and the primary's value otherwise. -/
theorem merge_pointwise (A B : TomlTable) (k : String) :
    ((List.lookup k A).isSome →
      List.lookup k (toml_merge A B) = (List.lookup k B).or (List.lookup k A)) ∧
    toml_merge [("x", Toml.table [("a", Toml.int 1), ("b", Toml.int 2)])]
        [("x", Toml.table [("a", Toml.int 9)])] =
      [("x", Toml.table [("a", Toml.int 9)])] := by
  refine ⟨?_, rfl⟩
  induction A with
  | nil => intro h; simp [List.lookup] at h
  | cons p rest ih =>
    intro h
    obtain ⟨k0, v0⟩ := p
    by_cases hk : (k == k0) = true
    · have hkeq : k = k0 := eq_of_beq hk
      subst hkeq
      cases hB : List.lookup k B with
      | some rv => simp [toml_merge, List.lookup, hB, Option.or]
      | none => simp [toml_merge, List.lookup, hB, Option.or]
    · have hk2 : (k == k0) = false := by
        cases hkk : (k == k0) with
        | true => exact absurd hkk hk
        | false => rfl
      have hrest : (List.lookup k rest).isSome := by
        simpa [List.lookup, hk2] using h
      cases hB0 : List.lookup k0 B with
      | some rv => simpa [toml_merge, List.lookup, hk2, hB0] using ih hrest
      | none => simpa [toml_merge, List.lookup, hk2, hB0] using ih hrest

theorem merge_pointwise_witness :
    List.lookup "a" (toml_merge [("a", Toml.int 1), ("b", Toml.int 2)]
        [("a", Toml.int 9)]) =
      (List.lookup "a" [("a", Toml.int 9)]).or
        (List.lookup "a" [("a", Toml.int 1), ("b", Toml.int 2)]) :=
  (merge_pointwise [("a", Toml.int 1), ("b", Toml.int 2)] [("a", Toml.int 9)]
      "a").1 (by decide)

/-- C2: the merge result's key sequence is exactly the primary table's key
sequence, so the key set never grows and keys present only in the override
are dropped. -/
theorem merge_keys (A B : TomlTable) :
    (toml_merge A B).map Prod.fst = A.map Prod.fst := by
  induction A with
  | nil => rfl
  | cons p rest ih =>
    cases hB : List.lookup p.1 B with
    | some rv => simpa [toml_merge, hB] using ih
    | none => simpa [toml_merge, hB] using ih

/-- C10: merging an empty primary table discards the whole override. -/
theorem merge_empty_primary (B : TomlTable) :
    toml_merge [] B = [] := rfl

/-- C3: the value adapters map Integer to its decimal string, Float and
Timestamp to their formatted strings, String verbatim, JSON Null to the
empty string, and keep only Boolean values typed as booleans. -/
theorem adapt_scalars :
    (∀ i : Int, toml_to_mustache (Toml.int i) = Data.strVal (toString i)) ∧
    (∀ s : String, toml_to_mustache (Toml.float s) = Data.strVal s) ∧
    (∀ s : String, toml_to_mustache (Toml.datetime s) = Data.strVal s) ∧
    (∀ s : String, toml_to_mustache (Toml.str s) = Data.strVal s) ∧
    (∀ b : Bool, toml_to_mustache (Toml.bool b) = Data.boolVal b) ∧
    json_to_mustache Json.null = Data.strVal "" ∧
    (∀ i : Int, json_to_mustache (Json.i64 i) = Data.strVal (toString i)) ∧
    (∀ n : Nat, json_to_mustache (Json.u64 n) = Data.strVal (toString n)) ∧
    (∀ s : String, json_to_mustache (Json.f64 s) = Data.strVal s) ∧
    (∀ s : String, json_to_mustache (Json.str s) = Data.strVal s) ∧
    (∀ b : Bool, json_to_mustache (Json.bool b) = Data.boolVal b) ∧
    toml_to_mustache (Toml.int 42) = Data.strVal "42" ∧
    json_to_mustache (Json.bool true) = Data.boolVal true := by
  refine ⟨fun i => by simp [toml_to_mustache], fun s => by simp [toml_to_mustache],
    fun s => by simp [toml_to_mustache], fun s => by simp [toml_to_mustache],
    fun b => by simp [toml_to_mustache], by simp [json_to_mustache],
    fun i => by simp [json_to_mustache], fun n => by simp [json_to_mustache],
    fun s => by simp [json_to_mustache], fun s => by simp [json_to_mustache],
    fun b => by simp [json_to_mustache], by simp [toml_to_mustache]; rfl,
    by simp [json_to_mustache]⟩

/-- C4: the adapters are total Lean functions (no fallible return type), map
a list to the ordered list of adapted elements, and map a table to the
mapping of verbatim keys to recursively adapted values. -/
theorem adapt_structural :
    (∀ a : List Toml, toml_vec_to_mustache a = Data.vecVal (a.map toml_to_mustache)) ∧
    (∀ a : List Toml, toml_to_mustache (Toml.arr a) = Data.vecVal (a.map toml_to_mustache)) ∧
    (∀ t : List (String × Toml), toml_table_to_mustache t =
      Data.mapVal (t.map (fun p => (p.1, toml_to_mustache p.2)))) ∧
    (∀ t : List (String × Toml), toml_to_mustache (Toml.table t) =
      Data.mapVal (t.map (fun p => (p.1, toml_to_mustache p.2)))) ∧
    (∀ a : List Json, json_vec_to_mustache a = Data.vecVal (a.map json_to_mustache)) ∧
    (∀ a : List Json, json_to_mustache (Json.arr a) = Data.vecVal (a.map json_to_mustache)) ∧
    (∀ o : List (String × Json), json_object_to_mustache o =
      Data.mapVal (o.map (fun p => (p.1, json_to_mustache p.2)))) := by
  refine ⟨fun a => ?_, fun a => ?_, fun t => ?_, fun t => ?_, fun a => ?_,
    fun a => ?_, fun o => ?_⟩
  · simp [toml_vec_to_mustache, toml_list_to_mustache_eq_map]
  · simp [toml_to_mustache, toml_list_to_mustache_eq_map]
  · simp [toml_table_to_mustache, toml_entries_to_mustache_eq_map]
  · simp [toml_to_mustache, toml_entries_to_mustache_eq_map]
  · simp [json_vec_to_mustache, json_list_to_mustache_eq_map]
  · simp [json_to_mustache, json_list_to_mustache_eq_map]
  · simp [json_object_to_mustache, json_entries_to_mustache_eq_map]

/-- C5 counterexample: the code builds the variable name from the package
name verbatim, not uppercased; with the uppercase-named variable set and the
verbatim-named one absent, the fetch returns none instead of the table. -/
theorem env_scheme_counterexample :
    env_var_name "redis" ≠ env_var_name_spec "redis" ∧
    env_to_toml (fun v => if v = env_var_name_spec "redis" then some "port = 1" else none)
        (fun _ => some []) "redis" = .ok none := by
  constructor
  · decide
  · rfl

/-- C5 amended: the fetch reads exactly one environment variable, named by
appending the package name verbatim (no case change) to the fixed stem;
absence of that variable yields none with no error. -/
theorem env_fetch_scheme (env env2 : String → Option String)
    (parse : String → Option TomlTable) (pkg : String) :
    env_var_name pkg = "BLDR_" ++ pkg ∧
    (env (env_var_name pkg) = none → env_to_toml env parse pkg = .ok none) ∧
    (env (env_var_name pkg) = env2 (env_var_name pkg) →
      env_to_toml env parse pkg = env_to_toml env2 parse pkg) := by
  refine ⟨rfl, ?_, ?_⟩
  · intro h
    simp [env_to_toml, h]
  · intro h
    simp [env_to_toml, h]

theorem env_fetch_scheme_witness :
    env_to_toml (fun _ => none) (fun _ => none) "redis" = .ok none :=
  (env_fetch_scheme (fun _ => none) (fun _ => none) (fun _ => none) "redis").2.1 rfl

/-- C6: the data handed to the adapter is the defaults table overlaid by the
discovery override and then by the environment override, in that order, an
absent overlay passing the current table through unchanged. -/
theorem final_data_overlay_order (default_toml : TomlTable)
    (disc env_toml : Option TomlTable) :
    final_config_data default_toml disc env_toml =
      toml_table_to_mustache (overlay (overlay default_toml disc) env_toml) ∧
    final_config_data default_toml disc none =
      toml_table_to_mustache (overlay default_toml disc) := by
  constructor
  · cases disc <;> cases env_toml <;> rfl
  · cases disc <;> rfl

/-- C7: when the environment variable is present but its value fails to
parse, the invocation stops with the parse error and writes zero
configuration files. -/
theorem env_parse_failure_writes_nothing
    (default_toml : TomlTable) (disc : Option TomlTable)
    (env : String → Option String) (parse : String → Option TomlTable)
    (pkg s : String) (files : List String)
    (compile create : String → Except BldrError Unit)
    (hpresent : env (env_var_name pkg) = some s) (hparse : parse s = none) :
    package_configure default_toml disc env parse pkg files compile create =
      ([], some BldrError.tomlParser) := by
  simp [package_configure, env_to_toml, hpresent, hparse]

theorem env_parse_failure_writes_nothing_witness :
    package_configure [] none (fun _ => some "=bad") (fun _ => none) "redis"
      ["a.conf"] (fun _ => .ok ()) (fun _ => .ok ()) =
      ([], some BldrError.tomlParser) :=
  env_parse_failure_writes_nothing [] none (fun _ => some "=bad") (fun _ => none)
    "redis" "=bad" ["a.conf"] (fun _ => .ok ()) (fun _ => .ok ()) rfl rfl

/-- C8: the first per-file failure (template compile failure or file
creation failure) aborts the whole loop with that error; the files before it
stay written with no rollback, and the files after it are never attempted
(the result does not depend on them). -/
theorem render_first_failure_aborts
    (compile create : String → Except BldrError Unit)
    (pre post : List String) (f : String) (e : BldrError)
    (hpre : ∀ g ∈ pre, compile g = .ok () ∧ create g = .ok ())
    (hf : compile f = .error e ∨ (compile f = .ok () ∧ create f = .error e)) :
    render_files compile create (pre ++ f :: post) = (pre, some e) := by
  induction pre with
  | nil =>
    rcases hf with h | ⟨h1, h2⟩
    · simp [render_files, h]
    · simp [render_files, h1, h2]
  | cons g rest ih =>
    have hg := hpre g (by simp)
    have hrest : ∀ g2 ∈ rest, compile g2 = .ok () ∧ create g2 = .ok () :=
      fun g2 hg2 => hpre g2 (by simp [hg2])
    simp [render_files, hg.1, hg.2, ih hrest]

theorem render_first_failure_aborts_witness :
    render_files
      (fun f => if f = "b" then .error (BldrError.templateFailure "b") else .ok ())
      (fun _ => .ok ()) (["a"] ++ "b" :: ["c"]) =
      (["a"], some (BldrError.templateFailure "b")) :=
  render_first_failure_aborts
    (fun f => if f = "b" then .error (BldrError.templateFailure "b") else .ok ())
    (fun _ => .ok ()) ["a"] ["c"] "b" (BldrError.templateFailure "b")
    (by intro g hg
        simp only [List.mem_singleton] at hg
        subst hg
        exact ⟨rfl, rfl⟩)
    (Or.inl rfl)

/-- C9: the filename derivation takes the last slash-separated segment, but
the empty URL yields the empty filename with no error: splitting the empty
string yields one empty segment, so the missing-filename error path is
unreachable and the derivation never fails. -/
theorem file_name_eval :
    file_name "http://host/path/name.ext" = Except.ok "name.ext" ∧
    file_name "name.ext" = Except.ok "name.ext" ∧
    file_name "" = Except.ok "" ∧
    ∀ url : String, ∃ s : String, file_name url = Except.ok s := by
  refine ⟨rfl, rfl, rfl, ?_⟩
  intro url
  cases hl : (split_on_slash url.data).getLast? with
  | some r => exact ⟨String.mk r, by simp [file_name, hl]⟩
  | none =>
    exact absurd (List.getLast?_eq_none_iff.mp hl) (split_on_slash_ne_nil _)

end Habitat
